import Mathlib

/-!
Verification of the Jigsaw puzzle state engine.

The development shallowly embeds the puzzle engine (src/src/utils/puzzleEngine.js)
and the stateful puzzle controller (src/src/hooks/usePuzzle.js), together with the
two thin collaborators relevant to the verified properties: the reshuffle handler
of src/src/App.jsx and the context-menu guard of src/src/components/PuzzleBoard.jsx.

Modelling conventions:
  - JavaScript numbers carrying pixel coordinates and sizes are modelled as
    rationals; divisions such as imageWidth / cols are exact, matching the
    engine, which never rounds piece sizes.
  - Rotations are natural numbers of degrees, reduced mod 360 exactly as the
    engine does with the JavaScript remainder on non-negative operands.
  - Calls to Math.random are modelled by threading an explicit stream of draws
    (one tuple of three rationals per piece index); each draw is assumed to lie
    in the half-open unit interval, which is the contract of Math.random.
  - The React state of the controller hook (pieces, moveCount, completed,
    hasStarted) becomes an explicit state record. The onFirstMove and
    onComplete callbacks are modelled by counters recording how many times each
    notification has fired since the last initialization.
  - All functions are pure, so the fact that the JavaScript code never mutates
    its inputs (it builds new objects with spread syntax) is inherent in the
    embedding.
-/

/-- A puzzle piece, mirroring the object literal built by generatePieces in
src/src/utils/puzzleEngine.js. -/
structure Piece where
  id : Nat
  row : Nat
  col : Nat
  correctX : ℚ
  correctY : ℚ
  currentX : ℚ
  currentY : ℚ
  width : ℚ
  height : ℚ
  rotation : Nat
  isPlaced : Bool
  deriving DecidableEq

namespace PuzzleEngine

/-- Embedding of generatePieces(cols, rows, imageWidth, imageHeight): nested
row-major loops pushing one piece per grid cell. -/
def generatePieces (cols rows : Nat) (imageWidth imageHeight : ℚ) : List Piece :=
  let pieceW := imageWidth / (cols : ℚ)
  let pieceH := imageHeight / (rows : ℚ)
  (List.range rows).flatMap fun row =>
    (List.range cols).map fun col =>
      { id := row * cols + col
        row := row
        col := col
        correctX := (col : ℚ) * pieceW
        correctY := (row : ℚ) * pieceH
        currentX := 0
        currentY := 0
        width := pieceW
        height := pieceH
        rotation := 0
        isPlaced := false }

/-- Embedding of getRandomRotation(mode): the draw of Math.random is passed in
as the rational r. The JavaScript indexes options with
Math.floor(random times options.length); out-of-range indexing cannot occur for
draws in the unit interval, and the embedding returns 0 in that dead branch. -/
def getRandomRotation (mode : String) (r : ℚ) : Nat :=
  if mode = "90" then
    ([0, 90, 180, 270] : List Nat).getD (⌊r * 4⌋).toNat 0
  else if mode = "180" then
    ([0, 180] : List Nat).getD (⌊r * 2⌋).toNat 0
  else
    0

/-- The per-piece body of the map inside shufflePieces: spread the piece, then
overwrite currentX, currentY, rotation and isPlaced. The tuple r carries the
three Math.random draws this piece consumes. -/
def scatterPiece (areaWidth areaHeight pieceW pieceH : ℚ) (rotationMode : String)
    (r : ℚ × ℚ × ℚ) (piece : Piece) : Piece :=
  { piece with
    currentX := r.1 * max 0 (areaWidth - pieceW)
    currentY := r.2.1 * max 0 (areaHeight - pieceH)
    rotation := getRandomRotation rotationMode r.2.2
    isPlaced := false }

/-- Recursion over the piece list underlying shufflePieces, threading the index
into the stream of random draws. -/
def shuffleFrom (areaWidth areaHeight pieceW pieceH : ℚ) (rotationMode : String)
    (rand : Nat → ℚ × ℚ × ℚ) : Nat → List Piece → List Piece
  | _, [] => []
  | i, piece :: rest =>
    scatterPiece areaWidth areaHeight pieceW pieceH rotationMode (rand i) piece ::
      shuffleFrom areaWidth areaHeight pieceW pieceH rotationMode rand (i + 1) rest

/-- Embedding of shufflePieces(pieces, areaWidth, areaHeight, pieceW, pieceH,
rotationMode): a map over the pieces, with the stream rand supplying the
Math.random draws in order. -/
def shufflePieces (pieces : List Piece) (areaWidth areaHeight pieceW pieceH : ℚ)
    (rotationMode : String) (rand : Nat → ℚ × ℚ × ℚ) : List Piece :=
  shuffleFrom areaWidth areaHeight pieceW pieceH rotationMode rand 0 pieces

/-- The default value of the threshold parameter of isNearCorrectPosition. -/
def defaultSnapThreshold : ℚ := 30

/-- Embedding of isNearCorrectPosition(piece, threshold): false on any non-zero
rotation, otherwise a strict comparison of both axis offsets against the
threshold. -/
def isNearCorrectPosition (piece : Piece) (threshold : ℚ) : Bool :=
  if piece.rotation ≠ 0 then false
  else
    decide (|piece.currentX - piece.correctX| < threshold) &&
      decide (|piece.currentY - piece.correctY| < threshold)

/-- Embedding of snapPiece(piece). -/
def snapPiece (piece : Piece) : Piece :=
  { piece with
    currentX := piece.correctX
    currentY := piece.correctY
    rotation := 0
    isPlaced := true }

/-- Embedding of isPuzzleComplete(pieces). -/
def isPuzzleComplete (pieces : List Piece) : Bool :=
  decide (0 < pieces.length) && pieces.all fun p => p.isPlaced

/-- The default value of the step parameter of rotatePiece. -/
def defaultRotateStep : Nat := 90

/-- Embedding of rotatePiece(piece, step). -/
def rotatePiece (piece : Piece) (step : Nat) : Piece :=
  { piece with rotation := (piece.rotation + step) % 360 }

end PuzzleEngine

/-- The configuration parameters of the usePuzzle hook. -/
structure Config where
  cols : Nat
  rows : Nat
  imageWidth : ℚ
  imageHeight : ℚ
  snapThreshold : ℚ
  rotationMode : String

/-- The state owned by the usePuzzle hook: the piece collection, the move
counter, the completion flag and the first-move latch, together with counters
recording how often the onFirstMove and onComplete notifications have fired
since the last initialization. -/
structure PuzzleState where
  pieces : List Piece
  moveCount : Nat
  completed : Bool
  hasStarted : Bool
  firstMoveEvents : Nat
  completeEvents : Nat
  deriving DecidableEq

namespace UsePuzzle

open PuzzleEngine

/-- Embedding of initPuzzle: generate, shuffle, and reset all flags and
counters. The event counters restart at zero, so they count notifications per
session. -/
def initPuzzle (cfg : Config) (rand : Nat → ℚ × ℚ × ℚ) : PuzzleState :=
  { pieces :=
      shufflePieces (generatePieces cfg.cols cfg.rows cfg.imageWidth cfg.imageHeight)
        cfg.imageWidth cfg.imageHeight (cfg.imageWidth / (cfg.cols : ℚ))
        (cfg.imageHeight / (cfg.rows : ℚ)) cfg.rotationMode rand
    moveCount := 0
    completed := false
    hasStarted := false
    firstMoveEvents := 0
    completeEvents := 0 }

/-- The body of the map inside movePiece: pieces with a different id and placed
pieces pass through unchanged; otherwise the piece moves to the new position
and snaps when near its correct pose. -/
def moveUpdate (snapThreshold : ℚ) (pieceId : Nat) (newX newY : ℚ) (p : Piece) : Piece :=
  if p.id != pieceId || p.isPlaced then p
  else
    let moved := { p with currentX := newX, currentY := newY }
    if isNearCorrectPosition moved snapThreshold then snapPiece moved else moved

/-- Embedding of the movePiece command of the hook. Early return when
completed; otherwise update the pieces, fire onComplete when the update makes
the puzzle complete, latch hasStarted (firing onFirstMove on the first
command), and increment the move counter unconditionally. -/
def movePiece (cfg : Config) (st : PuzzleState) (pieceId : Nat) (newX newY : ℚ) :
    PuzzleState :=
  if st.completed then st
  else
    let updated := st.pieces.map (moveUpdate cfg.snapThreshold pieceId newX newY)
    let fires := !st.completed && isPuzzleComplete updated
    { pieces := updated
      moveCount := st.moveCount + 1
      completed := fires
      hasStarted := true
      firstMoveEvents := if st.hasStarted then st.firstMoveEvents else st.firstMoveEvents + 1
      completeEvents := if fires then st.completeEvents + 1 else st.completeEvents }

/-- The body of the map inside the rotatePiece command, analogous to
moveUpdate with the engine rotation in place of the position update. -/
def rotateUpdate (snapThreshold : ℚ) (step : Nat) (pieceId : Nat) (p : Piece) : Piece :=
  if p.id != pieceId || p.isPlaced then p
  else
    let rotated := PuzzleEngine.rotatePiece p step
    if isNearCorrectPosition rotated snapThreshold then snapPiece rotated else rotated

/-- Embedding of the rotatePiece command of the hook. The step is 180 exactly
when the rotation mode is the string 180, and 90 for every other mode,
including the mode none. -/
def rotatePiece (cfg : Config) (st : PuzzleState) (pieceId : Nat) : PuzzleState :=
  if st.completed then st
  else
    let step := if cfg.rotationMode = "180" then 180 else 90
    let updated := st.pieces.map (rotateUpdate cfg.snapThreshold step pieceId)
    let fires := !st.completed && isPuzzleComplete updated
    { pieces := updated
      moveCount := st.moveCount + 1
      completed := fires
      hasStarted := true
      firstMoveEvents := if st.hasStarted then st.firstMoveEvents else st.firstMoveEvents + 1
      completeEvents := if fires then st.completeEvents + 1 else st.completeEvents }

/-- Embedding of getHintPiece: a uniformly random unplaced piece, or none when
every piece is placed. The rational r is the Math.random draw. -/
def getHintPiece (st : PuzzleState) (r : ℚ) : Option Piece :=
  let unplaced := st.pieces.filter fun p => !p.isPlaced
  if unplaced.length = 0 then none
  else unplaced[(⌊r * (unplaced.length : ℚ)⌋).toNat]?

end UsePuzzle

namespace App

open PuzzleEngine

/-- Embedding of handleShuffle in src/src/App.jsx: when not completed,
re-scatter the currently unplaced pieces and replay the scattered positions
through the movePiece command, one piece at a time. -/
def handleShuffle (cfg : Config) (st : PuzzleState) (rand : Nat → ℚ × ℚ × ℚ) :
    PuzzleState :=
  if st.completed then st
  else
    let pw := cfg.imageWidth / (cfg.cols : ℚ)
    let ph := cfg.imageHeight / (cfg.rows : ℚ)
    let reshuffled := shufflePieces (st.pieces.filter fun p => !p.isPlaced)
      cfg.imageWidth cfg.imageHeight pw ph cfg.rotationMode rand
    reshuffled.foldl (fun s p => UsePuzzle.movePiece cfg s p.id p.currentX p.currentY) st

end App

namespace PuzzleBoard

/-- Embedding of the guard of handleContextMenu in
src/src/components/PuzzleBoard.jsx: the rotate command actually issued, as the
id of the hit piece, or none. The handler returns early when the puzzle is
completed or the rotation mode is none; found is the result of hit-testing the
pointer coordinates against the pieces. -/
def handleContextMenu (completed : Bool) (rotationMode : String) (found : Option Nat) :
    Option Nat :=
  if completed || rotationMode == "none" then none
  else found

end PuzzleBoard

/-- The controller states reachable from an initialization by any sequence of
move, rotate, hint and reshuffle commands. Hint (getHintPiece) reads the state
without writing it, so it reappears as a stuttering step. -/
inductive Reach (cfg : Config) : PuzzleState → Prop where
  | init (rand : Nat → ℚ × ℚ × ℚ) : Reach cfg (UsePuzzle.initPuzzle cfg rand)
  | move {st : PuzzleState} (pieceId : Nat) (newX newY : ℚ) :
      Reach cfg st → Reach cfg (UsePuzzle.movePiece cfg st pieceId newX newY)
  | rotate {st : PuzzleState} (pieceId : Nat) :
      Reach cfg st → Reach cfg (UsePuzzle.rotatePiece cfg st pieceId)
  | hint {st : PuzzleState} : Reach cfg st → Reach cfg st
  | reshuffle {st : PuzzleState} (rand : Nat → ℚ × ℚ × ℚ) :
      Reach cfg st → Reach cfg (App.handleShuffle cfg st rand)

/-- A placed piece is locked at its correct pose. -/
def PlacedOk (p : Piece) : Prop :=
  p.isPlaced = true → p.rotation = 0 ∧ p.currentX = p.correctX ∧ p.currentY = p.correctY

/-- The placement invariant of a controller state. -/
def PlacementInv (st : PuzzleState) : Prop := ∀ p ∈ st.pieces, PlacedOk p

/-- The completion notification counter agrees with the completion flag. -/
def EventInv (st : PuzzleState) : Prop :=
  st.completeEvents = if st.completed = true then 1 else 0

/-- A constant stream of random draws, used to build concrete states. -/
def rand0 : Nat → ℚ × ℚ × ℚ := fun _ => (0, 0, 0)

/-- A concrete configuration with rotation mode none. -/
def cfgNone : Config :=
  { cols := 1, rows := 1, imageWidth := 100, imageHeight := 100,
    snapThreshold := 30, rotationMode := "none" }

/-- A concrete unplaced piece far from its correct position. -/
def pieceFar : Piece :=
  { id := 0, row := 0, col := 0, correctX := 0, correctY := 0,
    currentX := 500, currentY := 500, width := 100, height := 100,
    rotation := 0, isPlaced := false }

/-- A concrete in-play state holding only pieceFar. -/
def stFar : PuzzleState :=
  { pieces := [pieceFar], moveCount := 0, completed := false,
    hasStarted := false, firstMoveEvents := 0, completeEvents := 0 }

/-- A concrete completed state. -/
def stDone : PuzzleState :=
  { pieces := [PuzzleEngine.snapPiece pieceFar], moveCount := 7, completed := true,
    hasStarted := true, firstMoveEvents := 1, completeEvents := 1 }

/-- A concrete piece with a given rotation, used for the rotation examples. -/
def testPiece (rot : Nat) : Piece :=
  { id := 3, row := 1, col := 0, correctX := 0, correctY := 50,
    currentX := 20, currentY := 60, width := 50, height := 50,
    rotation := rot, isPlaced := false }

namespace PuzzleEngine

theorem isNearCorrectPosition_iff (p : Piece) (t : ℚ) :
    isNearCorrectPosition p t = true ↔
      p.rotation = 0 ∧ |p.currentX - p.correctX| < t ∧ |p.currentY - p.correctY| < t := by
  unfold isNearCorrectPosition
  by_cases h : p.rotation = 0 <;> simp [h]

theorem isPuzzleComplete_iff (ps : List Piece) :
    isPuzzleComplete ps = true ↔ ps ≠ [] ∧ ∀ p ∈ ps, p.isPlaced = true := by
  unfold isPuzzleComplete
  simp [List.all_eq_true, List.length_pos]

theorem snapPiece_fields (p : Piece) :
    (snapPiece p).isPlaced = true ∧ (snapPiece p).rotation = 0 ∧
      (snapPiece p).currentX = (snapPiece p).correctX ∧
      (snapPiece p).currentY = (snapPiece p).correctY := by
  simp [snapPiece]

end PuzzleEngine


/-- C2: for every piece and threshold, isNearCorrectPosition is true exactly
when the rotation is 0 and both axis offsets are strictly below the threshold
(so a piece offset exactly threshold on either axis is not near, and any
non-zero rotation is never near), and the default threshold is 30. -/
theorem near_iff_zero_rotation_and_strict_offsets :
    (∀ (p : Piece) (t : ℚ),
        PuzzleEngine.isNearCorrectPosition p t = true ↔
          p.rotation = 0 ∧ |p.currentX - p.correctX| < t ∧ |p.currentY - p.correctY| < t)
      ∧ PuzzleEngine.defaultSnapThreshold = 30 :=
  ⟨PuzzleEngine.isNearCorrectPosition_iff, rfl⟩

/-- C9: rotatePiece returns a copy whose rotation is the old rotation plus the
step, reduced mod 360, with every other field unchanged; the default step is
90; in particular rotating 270 by the default step wraps to 0 and rotating 90
by 180 gives 270. The embedding is pure, so the input piece is unmodified. -/
theorem rotatePiece_mod360_copy :
    (∀ (p : Piece) (s : Nat),
        (PuzzleEngine.rotatePiece p s).rotation = (p.rotation + s) % 360 ∧
        (PuzzleEngine.rotatePiece p s).id = p.id ∧
        (PuzzleEngine.rotatePiece p s).row = p.row ∧
        (PuzzleEngine.rotatePiece p s).col = p.col ∧
        (PuzzleEngine.rotatePiece p s).correctX = p.correctX ∧
        (PuzzleEngine.rotatePiece p s).correctY = p.correctY ∧
        (PuzzleEngine.rotatePiece p s).currentX = p.currentX ∧
        (PuzzleEngine.rotatePiece p s).currentY = p.currentY ∧
        (PuzzleEngine.rotatePiece p s).width = p.width ∧
        (PuzzleEngine.rotatePiece p s).height = p.height ∧
        (PuzzleEngine.rotatePiece p s).isPlaced = p.isPlaced)
      ∧ PuzzleEngine.defaultRotateStep = 90
      ∧ (PuzzleEngine.rotatePiece (testPiece 270) PuzzleEngine.defaultRotateStep).rotation = 0
      ∧ (PuzzleEngine.rotatePiece (testPiece 90) 180).rotation = 270 := by
  refine ⟨fun p s => ?_, rfl, ?_, ?_⟩
  · simp [PuzzleEngine.rotatePiece]
  · simp [PuzzleEngine.rotatePiece, PuzzleEngine.defaultRotateStep, testPiece]
  · simp [PuzzleEngine.rotatePiece, testPiece]

theorem range_flatMap_map {α : Type _} (f : Nat → Nat → α) (cols : Nat) (hc : 0 < cols) :
    ∀ rows, (List.range rows).flatMap (fun row => (List.range cols).map (f row)) =
      (List.range (rows * cols)).map (fun i => f (i / cols) (i % cols)) := by
  intro rows
  induction rows with
  | zero => simp
  | succ n ih =>
    rw [List.range_succ, List.flatMap_append, ih, Nat.succ_mul, List.range_add,
      List.map_append, List.map_map]
    have h2 : List.map ((fun i => f (i / cols) (i % cols)) ∘ fun x => n * cols + x)
        (List.range cols) = List.map (f n) (List.range cols) := by
      refine List.map_congr_left fun x hx => ?_
      have hxc : x < cols := List.mem_range.mp hx
      have hdiv : (n * cols + x) / cols = n := by
        rw [Nat.add_comm, Nat.add_mul_div_right x n hc, Nat.div_eq_of_lt hxc, Nat.zero_add]
      have hmod : (n * cols + x) % cols = x := by
        rw [Nat.add_comm, Nat.add_mul_mod_self_right, Nat.mod_eq_of_lt hxc]
      simp [Function.comp, hdiv, hmod]
    rw [h2]
    simp

/-- C6: for columns and rows at least 1 and positive image dimensions,
generatePieces returns exactly cols times rows pieces whose ids, read in
order, are 0 up to cols times rows minus 1 (row-major, pairwise distinct, with
id equal to row times cols plus col), and each piece carries the exact
unrounded width and height, the grid-derived correct position, a zero current
position, zero rotation, and an unset placed flag. -/
theorem generatePieces_rowMajor_grid (cols rows : Nat) (W H : ℚ)
    (hc : 1 ≤ cols) (hr : 1 ≤ rows) (hW : 0 < W) (hH : 0 < H) :
    (PuzzleEngine.generatePieces cols rows W H).length = cols * rows
    ∧ (PuzzleEngine.generatePieces cols rows W H).map Piece.id = List.range (cols * rows)
    ∧ ∀ i, i < cols * rows → ∃ p : Piece,
        (PuzzleEngine.generatePieces cols rows W H)[i]? = some p
        ∧ p.id = i ∧ p.row = i / cols ∧ p.col = i % cols
        ∧ p.id = p.row * cols + p.col
        ∧ p.width = W / (cols : ℚ) ∧ p.height = H / (rows : ℚ)
        ∧ p.correctX = (p.col : ℚ) * (W / (cols : ℚ))
        ∧ p.correctY = (p.row : ℚ) * (H / (rows : ℚ))
        ∧ p.currentX = 0 ∧ p.currentY = 0
        ∧ p.rotation = 0 ∧ p.isPlaced = false := by
  have hc0 : 0 < cols := hc
  have hid : ∀ i : Nat, i / cols * cols + i % cols = i := by
    intro i
    conv_rhs => rw [← Nat.div_add_mod i cols]
    rw [Nat.mul_comm]
  have hgen : PuzzleEngine.generatePieces cols rows W H =
      (List.range (rows * cols)).map (fun i =>
        ({ id := i / cols * cols + i % cols, row := i / cols, col := i % cols,
           correctX := ((i % cols : Nat) : ℚ) * (W / (cols : ℚ)),
           correctY := ((i / cols : Nat) : ℚ) * (H / (rows : ℚ)),
           currentX := 0, currentY := 0,
           width := W / (cols : ℚ), height := H / (rows : ℚ),
           rotation := 0, isPlaced := false } : Piece)) := by
    unfold PuzzleEngine.generatePieces
    exact range_flatMap_map
      (fun row col =>
        ({ id := row * cols + col, row := row, col := col,
           correctX := (col : ℚ) * (W / (cols : ℚ)),
           correctY := (row : ℚ) * (H / (rows : ℚ)),
           currentX := 0, currentY := 0,
           width := W / (cols : ℚ), height := H / (rows : ℚ),
           rotation := 0, isPlaced := false } : Piece)) cols hc0 rows
  refine ⟨?_, ?_, ?_⟩
  · rw [hgen]
    simp [Nat.mul_comm rows cols]
  · rw [hgen, List.map_map, Nat.mul_comm cols rows]
    have hfun : (List.range (rows * cols)).map
        (Piece.id ∘ fun i =>
          ({ id := i / cols * cols + i % cols, row := i / cols, col := i % cols,
             correctX := ((i % cols : Nat) : ℚ) * (W / (cols : ℚ)),
             correctY := ((i / cols : Nat) : ℚ) * (H / (rows : ℚ)),
             currentX := 0, currentY := 0,
             width := W / (cols : ℚ), height := H / (rows : ℚ),
             rotation := 0, isPlaced := false } : Piece)) =
        (List.range (rows * cols)).map id :=
      List.map_congr_left fun i _ => hid i
    rw [hfun, List.map_id]
  · intro i hi
    have hi2 : i < rows * cols := by rw [Nat.mul_comm]; exact hi
    have hp : (PuzzleEngine.generatePieces cols rows W H)[i]? =
        some ({ id := i / cols * cols + i % cols, row := i / cols, col := i % cols,
                correctX := ((i % cols : Nat) : ℚ) * (W / (cols : ℚ)),
                correctY := ((i / cols : Nat) : ℚ) * (H / (rows : ℚ)),
                currentX := 0, currentY := 0,
                width := W / (cols : ℚ), height := H / (rows : ℚ),
                rotation := 0, isPlaced := false } : Piece) := by
      rw [hgen, List.getElem?_map, List.getElem?_range hi2]
      rfl
    exact ⟨_, hp, hid i, rfl, rfl, rfl, rfl, rfl, rfl, rfl, rfl, rfl, rfl, rfl⟩

/-- Witness for C6 at a concrete 2 by 3 grid on a 200 by 300 canvas. -/
theorem generatePieces_rowMajor_grid_witness :
    (PuzzleEngine.generatePieces 2 3 200 300).length = 2 * 3
    ∧ (PuzzleEngine.generatePieces 2 3 200 300).map Piece.id = List.range (2 * 3)
    ∧ ∀ i, i < 2 * 3 → ∃ p : Piece,
        (PuzzleEngine.generatePieces 2 3 200 300)[i]? = some p
        ∧ p.id = i ∧ p.row = i / 2 ∧ p.col = i % 2
        ∧ p.id = p.row * 2 + p.col
        ∧ p.width = 200 / ((2 : Nat) : ℚ) ∧ p.height = 300 / ((3 : Nat) : ℚ)
        ∧ p.correctX = (p.col : ℚ) * (200 / ((2 : Nat) : ℚ))
        ∧ p.correctY = (p.row : ℚ) * (300 / ((3 : Nat) : ℚ))
        ∧ p.currentX = 0 ∧ p.currentY = 0
        ∧ p.rotation = 0 ∧ p.isPlaced = false :=
  generatePieces_rowMajor_grid 2 3 200 300 (by decide) (by decide)
    (by norm_num) (by norm_num)

namespace PuzzleEngine

theorem getRandomRotation_other (mode : String) (r : ℚ)
    (h90 : mode ≠ "90") (h180 : mode ≠ "180") : getRandomRotation mode r = 0 := by
  simp [getRandomRotation, h90, h180]

theorem getRandomRotation_mode90 (r : ℚ) (h0 : 0 ≤ r) (h1 : r < 1) :
    getRandomRotation "90" r = 0 ∨ getRandomRotation "90" r = 90 ∨
      getRandomRotation "90" r = 180 ∨ getRandomRotation "90" r = 270 := by
  have hfloor : ⌊r * 4⌋ < 4 := by
    have hlt : r * 4 < 4 := by nlinarith
    exact Int.floor_lt.mpr (by exact_mod_cast hlt)
  unfold getRandomRotation
  rw [if_pos rfl]
  set k := (⌊r * 4⌋).toNat with hk
  have hk4 : k < 4 := by omega
  interval_cases k <;> simp

theorem getRandomRotation_mode180 (r : ℚ) (h0 : 0 ≤ r) (h1 : r < 1) :
    getRandomRotation "180" r = 0 ∨ getRandomRotation "180" r = 180 := by
  have hfloor : ⌊r * 2⌋ < 2 := by
    have hlt : r * 2 < 2 := by nlinarith
    exact Int.floor_lt.mpr (by exact_mod_cast hlt)
  unfold getRandomRotation
  rw [if_neg (by decide), if_pos rfl]
  set k := (⌊r * 2⌋).toNat with hk
  have hk2 : k < 2 := by omega
  interval_cases k <;> simp

theorem shuffleFrom_length (aw ah pw ph : ℚ) (mode : String) (rand : Nat → ℚ × ℚ × ℚ) :
    ∀ (i : Nat) (l : List Piece), (shuffleFrom aw ah pw ph mode rand i l).length = l.length := by
  intro i l
  induction l generalizing i with
  | nil => rfl
  | cons p t ih => simp [shuffleFrom, ih]

theorem shuffleFrom_getElem? (aw ah pw ph : ℚ) (mode : String) (rand : Nat → ℚ × ℚ × ℚ) :
    ∀ (l : List Piece) (i j : Nat),
      (shuffleFrom aw ah pw ph mode rand i l)[j]? =
        l[j]?.map (scatterPiece aw ah pw ph mode (rand (i + j))) := by
  intro l
  induction l with
  | nil => intro i j; simp [shuffleFrom]
  | cons p t ih =>
    intro i j
    cases j with
    | zero => simp [shuffleFrom]
    | succ j =>
      have h : i + 1 + j = i + (j + 1) := by omega
      simp only [shuffleFrom, List.getElem?_cons_succ, ih (i + 1) j, h]

theorem shuffleFrom_isPlaced_false (aw ah pw ph : ℚ) (mode : String)
    (rand : Nat → ℚ × ℚ × ℚ) :
    ∀ (i : Nat) (l : List Piece) (p : Piece),
      p ∈ shuffleFrom aw ah pw ph mode rand i l → p.isPlaced = false := by
  intro i l
  induction l generalizing i with
  | nil => intro p hp; simp [shuffleFrom] at hp
  | cons q t ih =>
    intro p hp
    rcases List.mem_cons.mp hp with h | h
    · rw [h]; rfl
    · exact ih (i + 1) p h

end PuzzleEngine

/-- C7: shufflePieces returns a list of the same length and order in which
every piece is unplaced, both coordinates land inside the clamped scatter
area, the rotation is drawn per the mode (none or unrecognized gives 0, mode
90 gives a multiple of 90 below 360, mode 180 gives 0 or 180), and every other
field is copied from the input piece at the same position; the embedding is
pure, so the input list is not mutated. The hypothesis is the Math.random
contract for the stream of draws. -/
theorem shufflePieces_scatter_spec (pieces : List Piece) (areaW areaH pw ph : ℚ)
    (mode : String) (rand : Nat → ℚ × ℚ × ℚ)
    (hrand : ∀ i, 0 ≤ (rand i).1 ∧ (rand i).1 < 1 ∧ 0 ≤ (rand i).2.1 ∧ (rand i).2.1 < 1
      ∧ 0 ≤ (rand i).2.2 ∧ (rand i).2.2 < 1) :
    (PuzzleEngine.shufflePieces pieces areaW areaH pw ph mode rand).length = pieces.length
    ∧ ∀ (i : Nat) (p q : Piece), pieces[i]? = some p →
        (PuzzleEngine.shufflePieces pieces areaW areaH pw ph mode rand)[i]? = some q →
        q.isPlaced = false
        ∧ 0 ≤ q.currentX ∧ q.currentX ≤ max 0 (areaW - pw)
        ∧ 0 ≤ q.currentY ∧ q.currentY ≤ max 0 (areaH - ph)
        ∧ (mode ≠ "90" → mode ≠ "180" → q.rotation = 0)
        ∧ (mode = "90" → q.rotation = 0 ∨ q.rotation = 90 ∨ q.rotation = 180 ∨
            q.rotation = 270)
        ∧ (mode = "180" → q.rotation = 0 ∨ q.rotation = 180)
        ∧ q.id = p.id ∧ q.row = p.row ∧ q.col = p.col
        ∧ q.correctX = p.correctX ∧ q.correctY = p.correctY
        ∧ q.width = p.width ∧ q.height = p.height := by
  constructor
  · exact PuzzleEngine.shuffleFrom_length areaW areaH pw ph mode rand 0 pieces
  · intro i p q hp hq
    have hsh := PuzzleEngine.shuffleFrom_getElem? areaW areaH pw ph mode rand pieces 0 i
    rw [PuzzleEngine.shufflePieces] at hq
    rw [hsh, Nat.zero_add, hp] at hq
    have hqeq : q = PuzzleEngine.scatterPiece areaW areaH pw ph mode (rand i) p :=
      (Option.some.injEq _ _ ▸ hq).symm
    obtain ⟨hx0, hx1, hy0, hy1, hz0, hz1⟩ := hrand i
    have hmaxX : (0 : ℚ) ≤ max 0 (areaW - pw) := le_max_left 0 _
    have hmaxY : (0 : ℚ) ≤ max 0 (areaH - ph) := le_max_left 0 _
    subst hqeq
    refine ⟨rfl, mul_nonneg hx0 hmaxX, mul_le_of_le_one_left hmaxX (le_of_lt hx1),
      mul_nonneg hy0 hmaxY, mul_le_of_le_one_left hmaxY (le_of_lt hy1),
      ?_, ?_, ?_, rfl, rfl, rfl, rfl, rfl, rfl, rfl⟩
    · intro h90 h180
      exact PuzzleEngine.getRandomRotation_other mode (rand i).2.2 h90 h180
    · intro h90
      rw [h90]
      exact PuzzleEngine.getRandomRotation_mode90 (rand i).2.2 hz0 hz1
    · intro h180
      rw [h180]
      exact PuzzleEngine.getRandomRotation_mode180 (rand i).2.2 hz0 hz1

/-- Witness for C7: one concrete piece scattered with the constant draw
stream rand0 under rotation mode none. -/
theorem shufflePieces_scatter_spec_witness :
    (PuzzleEngine.shufflePieces [pieceFar] 300 200 50 50 "none" rand0).length =
      ([pieceFar] : List Piece).length
    ∧ ∀ (i : Nat) (p q : Piece), ([pieceFar] : List Piece)[i]? = some p →
        (PuzzleEngine.shufflePieces [pieceFar] 300 200 50 50 "none" rand0)[i]? = some q →
        q.isPlaced = false
        ∧ 0 ≤ q.currentX ∧ q.currentX ≤ max 0 (300 - 50 : ℚ)
        ∧ 0 ≤ q.currentY ∧ q.currentY ≤ max 0 (200 - 50 : ℚ)
        ∧ ("none" ≠ "90" → "none" ≠ "180" → q.rotation = 0)
        ∧ ("none" = "90" → q.rotation = 0 ∨ q.rotation = 90 ∨ q.rotation = 180 ∨
            q.rotation = 270)
        ∧ ("none" = "180" → q.rotation = 0 ∨ q.rotation = 180)
        ∧ q.id = p.id ∧ q.row = p.row ∧ q.col = p.col
        ∧ q.correctX = p.correctX ∧ q.correctY = p.correctY
        ∧ q.width = p.width ∧ q.height = p.height :=
  shufflePieces_scatter_spec [pieceFar] 300 200 50 50 "none" rand0
    (fun _ => ⟨le_refl 0, by norm_num [rand0], le_refl 0, by norm_num [rand0],
      le_refl 0, by norm_num [rand0]⟩)

namespace UsePuzzle

theorem moveUpdate_of_placed (t : ℚ) (pid : Nat) (x y : ℚ) (p : Piece)
    (hp : p.isPlaced = true) : moveUpdate t pid x y p = p := by
  simp [moveUpdate, hp]

theorem rotateUpdate_of_placed (t : ℚ) (s pid : Nat) (p : Piece)
    (hp : p.isPlaced = true) : rotateUpdate t s pid p = p := by
  simp [rotateUpdate, hp]

theorem movePiece_of_completed (cfg : Config) (st : PuzzleState) (pid : Nat) (x y : ℚ)
    (h : st.completed = true) : movePiece cfg st pid x y = st := by
  simp [movePiece, h]

theorem rotatePiece_of_completed (cfg : Config) (st : PuzzleState) (pid : Nat)
    (h : st.completed = true) : rotatePiece cfg st pid = st := by
  simp [rotatePiece, h]

theorem movePiece_pieces (cfg : Config) (st : PuzzleState) (pid : Nat) (x y : ℚ)
    (h : st.completed = false) :
    (movePiece cfg st pid x y).pieces =
      st.pieces.map (moveUpdate cfg.snapThreshold pid x y) := by
  simp [movePiece, h]

theorem rotatePiece_pieces (cfg : Config) (st : PuzzleState) (pid : Nat)
    (h : st.completed = false) :
    (rotatePiece cfg st pid).pieces =
      st.pieces.map
        (rotateUpdate cfg.snapThreshold (if cfg.rotationMode = "180" then 180 else 90) pid) := by
  simp [rotatePiece, h]

theorem moveUpdate_miss (t : ℚ) (pid : Nat) (x y : ℚ) (p : Piece)
    (hid : p.id = pid) (hup : p.isPlaced = false)
    (hnear : PuzzleEngine.isNearCorrectPosition
      { p with currentX := x, currentY := y } t = false) :
    moveUpdate t pid x y p = { p with currentX := x, currentY := y } := by
  have hcond : (p.id != pid || p.isPlaced) = false := by
    rw [hid, hup]
    simp
  simp only [moveUpdate, hcond, Bool.false_eq_true, if_false, hnear]

theorem rotateUpdate_miss (t : ℚ) (s pid : Nat) (p : Piece)
    (hid : p.id = pid) (hup : p.isPlaced = false)
    (hnear : PuzzleEngine.isNearCorrectPosition (PuzzleEngine.rotatePiece p s) t = false) :
    rotateUpdate t s pid p = PuzzleEngine.rotatePiece p s := by
  have hcond : (p.id != pid || p.isPlaced) = false := by
    rw [hid, hup]
    simp
  simp only [rotateUpdate, hcond, Bool.false_eq_true, if_false, hnear]

end UsePuzzle

/-- C4: while the puzzle is not completed, every move command and every rotate
command increments the move counter by exactly one, for every piece id and
target position, in particular also when the id matches no piece or matches an
already placed piece. -/
theorem moveCounter_always_increments (cfg : Config) (st : PuzzleState)
    (h : st.completed = false) :
    (∀ (pid : Nat) (x y : ℚ),
        (UsePuzzle.movePiece cfg st pid x y).moveCount = st.moveCount + 1)
    ∧ ∀ pid : Nat, (UsePuzzle.rotatePiece cfg st pid).moveCount = st.moveCount + 1 := by
  constructor
  · intro pid x y
    simp [UsePuzzle.movePiece, h]
  · intro pid
    simp [UsePuzzle.rotatePiece, h]

/-- Witness for C4 on a concrete in-play state; the conclusion in particular
covers a piece id matching no piece. -/
theorem moveCounter_always_increments_witness :
    (∀ (pid : Nat) (x y : ℚ),
        (UsePuzzle.movePiece cfgNone stFar pid x y).moveCount = stFar.moveCount + 1)
    ∧ ∀ pid : Nat, (UsePuzzle.rotatePiece cfgNone stFar pid).moveCount =
        stFar.moveCount + 1 :=
  moveCounter_always_increments cfgNone stFar rfl

/-- C5: once the controller is completed, move and rotate commands return the
state unchanged, so the piece collection, the move counter, the completion
flag and the first-move latch are all untouched; the embedding is total, so no
exception can be raised. -/
theorem completed_commands_noop (cfg : Config) (st : PuzzleState)
    (h : st.completed = true) :
    (∀ (pid : Nat) (x y : ℚ), UsePuzzle.movePiece cfg st pid x y = st)
    ∧ ∀ pid : Nat, UsePuzzle.rotatePiece cfg st pid = st := by
  constructor
  · intro pid x y
    exact UsePuzzle.movePiece_of_completed cfg st pid x y h
  · intro pid
    exact UsePuzzle.rotatePiece_of_completed cfg st pid h

/-- Witness for C5 on a concrete completed state. -/
theorem completed_commands_noop_witness :
    (∀ (pid : Nat) (x y : ℚ), UsePuzzle.movePiece cfgNone stDone pid x y = stDone)
    ∧ ∀ pid : Nat, UsePuzzle.rotatePiece cfgNone stDone pid = stDone :=
  completed_commands_noop cfgNone stDone rfl

/-- C10: a move command on an existing unplaced piece whose resulting pose
does not satisfy the snap predicate writes the supplied coordinates into the
piece verbatim, with no clamping or validation; the coordinates may be
negative or lie beyond the canvas. -/
theorem movePiece_no_clamping (cfg : Config) (st : PuzzleState) (i pid : Nat)
    (x y : ℚ) (p : Piece)
    (hc : st.completed = false)
    (hi : st.pieces[i]? = some p)
    (hid : p.id = pid)
    (hup : p.isPlaced = false)
    (hnear : PuzzleEngine.isNearCorrectPosition
      { p with currentX := x, currentY := y } cfg.snapThreshold = false) :
    (UsePuzzle.movePiece cfg st pid x y).pieces[i]? =
      some { p with currentX := x, currentY := y } := by
  rw [UsePuzzle.movePiece_pieces cfg st pid x y hc, List.getElem?_map, hi,
    Option.map_some', UsePuzzle.moveUpdate_miss cfg.snapThreshold pid x y p hid hup hnear]

/-- Witness for C10: the single piece of stFar is moved to a pose with a
negative x coordinate and a y coordinate far beyond the canvas, and lands
exactly there. -/
theorem movePiece_no_clamping_witness :
    (UsePuzzle.movePiece cfgNone stFar 0 (-500) 1000000).pieces[0]? =
      some { pieceFar with currentX := -500, currentY := 1000000 } :=
  movePiece_no_clamping cfgNone stFar 0 0 (-500) 1000000 pieceFar rfl rfl rfl rfl
    (by norm_num [PuzzleEngine.isNearCorrectPosition, pieceFar, cfgNone])

/-- C3 counterexample: with rotation mode none, a rotate command addressed to
the unplaced piece of stFar changes its rotation from 0 to 90, so the command
is not an engine-level no-op. -/
theorem rotate_mode_none_not_noop :
    (UsePuzzle.rotatePiece cfgNone stFar 0).pieces.map Piece.rotation = [90]
    ∧ stFar.pieces.map Piece.rotation = [0] := by
  constructor
  · rw [UsePuzzle.rotatePiece_pieces cfgNone stFar 0 rfl]
    simp [UsePuzzle.rotateUpdate, stFar, pieceFar, cfgNone,
      PuzzleEngine.rotatePiece, PuzzleEngine.isNearCorrectPosition]
  · rfl

/-- C3 amended: when the rotation mode is none the controller treats a rotate
command exactly as in mode 90, advancing the rotation of an existing unplaced
piece by a 90 degree step (here stated for a piece whose rotated pose does not
snap); the rotate command is unused rather than inert, because the
context-menu handler of the board suppresses rotate commands whenever the
rotation mode is none. -/
theorem rotate_mode_none_step90 (cfg : Config) (st : PuzzleState) (i pid : Nat)
    (p : Piece)
    (hmode : cfg.rotationMode = "none")
    (hc : st.completed = false)
    (hi : st.pieces[i]? = some p)
    (hid : p.id = pid)
    (hup : p.isPlaced = false)
    (hnear : PuzzleEngine.isNearCorrectPosition (PuzzleEngine.rotatePiece p 90)
      cfg.snapThreshold = false) :
    (UsePuzzle.rotatePiece cfg st pid).pieces[i]? =
      some (PuzzleEngine.rotatePiece p 90)
    ∧ ∀ (c : Bool) (found : Option Nat),
        PuzzleBoard.handleContextMenu c "none" found = none := by
  constructor
  · rw [UsePuzzle.rotatePiece_pieces cfg st pid hc, List.getElem?_map, hi, hmode,
      Option.map_some']
    have hstep : (if ("none" : String) = "180" then 180 else 90) = 90 := by decide
    rw [hstep, UsePuzzle.rotateUpdate_miss cfg.snapThreshold 90 pid p hid hup hnear]
  · intro c found
    simp [PuzzleBoard.handleContextMenu]

/-- Witness for C3: the amended statement at the concrete state stFar. -/
theorem rotate_mode_none_step90_witness :
    (UsePuzzle.rotatePiece cfgNone stFar 0).pieces[0]? =
      some (PuzzleEngine.rotatePiece pieceFar 90)
    ∧ ∀ (c : Bool) (found : Option Nat),
        PuzzleBoard.handleContextMenu c "none" found = none :=
  rotate_mode_none_step90 cfgNone stFar 0 0 pieceFar rfl rfl rfl rfl rfl
    (by simp [PuzzleEngine.isNearCorrectPosition, PuzzleEngine.rotatePiece, pieceFar])

theorem placedOk_moveUpdate (t : ℚ) (pid : Nat) (x y : ℚ) (p : Piece)
    (h : PlacedOk p) : PlacedOk (UsePuzzle.moveUpdate t pid x y p) := by
  unfold UsePuzzle.moveUpdate
  by_cases hcond : (p.id != pid || p.isPlaced) = true
  · rw [if_pos hcond]
    exact h
  · rw [if_neg hcond]
    have hup : p.isPlaced = false := by
      rcases Bool.or_eq_false_iff.mp (Bool.not_eq_true _ ▸ hcond) with ⟨-, h2⟩
      exact h2
    by_cases hsnap : PuzzleEngine.isNearCorrectPosition
        { p with currentX := x, currentY := y } t = true
    · rw [if_pos hsnap]
      intro _
      exact ⟨rfl, rfl, rfl⟩
    · rw [if_neg hsnap]
      intro hplaced
      exact absurd hplaced (by simp [hup])

theorem placedOk_rotateUpdate (t : ℚ) (s pid : Nat) (p : Piece)
    (h : PlacedOk p) : PlacedOk (UsePuzzle.rotateUpdate t s pid p) := by
  unfold UsePuzzle.rotateUpdate
  by_cases hcond : (p.id != pid || p.isPlaced) = true
  · rw [if_pos hcond]
    exact h
  · rw [if_neg hcond]
    have hup : p.isPlaced = false := by
      rcases Bool.or_eq_false_iff.mp (Bool.not_eq_true _ ▸ hcond) with ⟨-, h2⟩
      exact h2
    by_cases hsnap : PuzzleEngine.isNearCorrectPosition
        (PuzzleEngine.rotatePiece p s) t = true
    · rw [if_pos hsnap]
      intro _
      exact ⟨rfl, rfl, rfl⟩
    · rw [if_neg hsnap]
      intro hplaced
      exact absurd hplaced (by simp [PuzzleEngine.rotatePiece, hup])

theorem placementInv_movePiece (cfg : Config) (st : PuzzleState) (pid : Nat) (x y : ℚ)
    (h : PlacementInv st) : PlacementInv (UsePuzzle.movePiece cfg st pid x y) := by
  by_cases hc : st.completed = true
  · rw [UsePuzzle.movePiece_of_completed cfg st pid x y hc]
    exact h
  · intro p hp
    rw [UsePuzzle.movePiece_pieces cfg st pid x y (Bool.not_eq_true _ ▸ hc)] at hp
    rcases List.mem_map.mp hp with ⟨q, hq, rfl⟩
    exact placedOk_moveUpdate _ _ _ _ q (h q hq)

theorem placementInv_rotatePiece (cfg : Config) (st : PuzzleState) (pid : Nat)
    (h : PlacementInv st) : PlacementInv (UsePuzzle.rotatePiece cfg st pid) := by
  by_cases hc : st.completed = true
  · rw [UsePuzzle.rotatePiece_of_completed cfg st pid hc]
    exact h
  · intro p hp
    rw [UsePuzzle.rotatePiece_pieces cfg st pid (Bool.not_eq_true _ ▸ hc)] at hp
    rcases List.mem_map.mp hp with ⟨q, hq, rfl⟩
    exact placedOk_rotateUpdate _ _ _ q (h q hq)

theorem placementInv_foldl_move (cfg : Config) (l : List Piece) (st : PuzzleState)
    (h : PlacementInv st) :
    PlacementInv (l.foldl
      (fun s p => UsePuzzle.movePiece cfg s p.id p.currentX p.currentY) st) := by
  induction l generalizing st with
  | nil => exact h
  | cons p t ih => exact ih _ (placementInv_movePiece cfg st p.id p.currentX p.currentY h)

theorem placementInv_handleShuffle (cfg : Config) (st : PuzzleState)
    (rand : Nat → ℚ × ℚ × ℚ) (h : PlacementInv st) :
    PlacementInv (App.handleShuffle cfg st rand) := by
  unfold App.handleShuffle
  by_cases hc : st.completed = true
  · rw [if_pos hc]
    exact h
  · rw [if_neg hc]
    exact placementInv_foldl_move cfg _ st h

theorem placementInv_initPuzzle (cfg : Config) (rand : Nat → ℚ × ℚ × ℚ) :
    PlacementInv (UsePuzzle.initPuzzle cfg rand) := by
  intro p hp hplaced
  have hfalse : p.isPlaced = false :=
    PuzzleEngine.shuffleFrom_isPlaced_false cfg.imageWidth cfg.imageHeight
      (cfg.imageWidth / (cfg.cols : ℚ)) (cfg.imageHeight / (cfg.rows : ℚ))
      cfg.rotationMode rand 0
      (PuzzleEngine.generatePieces cfg.cols cfg.rows cfg.imageWidth cfg.imageHeight) p hp
  rw [hfalse] at hplaced
  cases hplaced

theorem reach_placementInv (cfg : Config) (st : PuzzleState) (h : Reach cfg st) :
    PlacementInv st := by
  induction h with
  | init rand => exact placementInv_initPuzzle cfg rand
  | move pid x y _ ih => exact placementInv_movePiece cfg _ pid x y ih
  | rotate pid _ ih => exact placementInv_rotatePiece cfg _ pid ih
  | hint _ ih => exact ih
  | reshuffle rand _ ih => exact placementInv_handleShuffle cfg _ rand ih

theorem movePiece_preserves_placed_at (cfg : Config) (st : PuzzleState)
    (pid : Nat) (x y : ℚ) (i : Nat) (p : Piece)
    (hi : st.pieces[i]? = some p) (hp : p.isPlaced = true) :
    (UsePuzzle.movePiece cfg st pid x y).pieces[i]? = some p := by
  by_cases hc : st.completed = true
  · rw [UsePuzzle.movePiece_of_completed cfg st pid x y hc]
    exact hi
  · rw [UsePuzzle.movePiece_pieces cfg st pid x y (Bool.not_eq_true _ ▸ hc),
      List.getElem?_map, hi, Option.map_some',
      UsePuzzle.moveUpdate_of_placed cfg.snapThreshold pid x y p hp]

theorem rotatePiece_preserves_placed_at (cfg : Config) (st : PuzzleState)
    (pid : Nat) (i : Nat) (p : Piece)
    (hi : st.pieces[i]? = some p) (hp : p.isPlaced = true) :
    (UsePuzzle.rotatePiece cfg st pid).pieces[i]? = some p := by
  by_cases hc : st.completed = true
  · rw [UsePuzzle.rotatePiece_of_completed cfg st pid hc]
    exact hi
  · rw [UsePuzzle.rotatePiece_pieces cfg st pid (Bool.not_eq_true _ ▸ hc),
      List.getElem?_map, hi, Option.map_some',
      UsePuzzle.rotateUpdate_of_placed cfg.snapThreshold _ pid p hp]

/-- C1: in every state reachable from an initialization by move, rotate, hint
and reshuffle commands, every placed piece sits at its correct position with
rotation 0, and a further move or rotate command leaves every placed piece
completely unchanged at its position in the collection. -/
theorem placed_pieces_locked (cfg : Config) (st : PuzzleState) (h : Reach cfg st) :
    (∀ p ∈ st.pieces, p.isPlaced = true →
        p.rotation = 0 ∧ p.currentX = p.correctX ∧ p.currentY = p.correctY)
    ∧ (∀ (i pid : Nat) (x y : ℚ) (p : Piece),
        st.pieces[i]? = some p → p.isPlaced = true →
        (UsePuzzle.movePiece cfg st pid x y).pieces[i]? = some p)
    ∧ (∀ (i pid : Nat) (p : Piece),
        st.pieces[i]? = some p → p.isPlaced = true →
        (UsePuzzle.rotatePiece cfg st pid).pieces[i]? = some p) :=
  ⟨fun p hp => reach_placementInv cfg st h p hp,
   fun i pid x y p hi hp => movePiece_preserves_placed_at cfg st pid x y i p hi hp,
   fun i pid p hi hp => rotatePiece_preserves_placed_at cfg st pid i p hi hp⟩

/-- Witness for C1 at the concrete state produced by an initialization with
the constant draw stream. -/
theorem placed_pieces_locked_witness :
    (∀ p ∈ (UsePuzzle.initPuzzle cfgNone rand0).pieces, p.isPlaced = true →
        p.rotation = 0 ∧ p.currentX = p.correctX ∧ p.currentY = p.correctY)
    ∧ (∀ (i pid : Nat) (x y : ℚ) (p : Piece),
        (UsePuzzle.initPuzzle cfgNone rand0).pieces[i]? = some p → p.isPlaced = true →
        (UsePuzzle.movePiece cfgNone (UsePuzzle.initPuzzle cfgNone rand0)
          pid x y).pieces[i]? = some p)
    ∧ (∀ (i pid : Nat) (p : Piece),
        (UsePuzzle.initPuzzle cfgNone rand0).pieces[i]? = some p → p.isPlaced = true →
        (UsePuzzle.rotatePiece cfgNone (UsePuzzle.initPuzzle cfgNone rand0)
          pid).pieces[i]? = some p) :=
  placed_pieces_locked cfgNone (UsePuzzle.initPuzzle cfgNone rand0) (Reach.init rand0)

theorem movePiece_completeEvents (cfg : Config) (st : PuzzleState) (pid : Nat) (x y : ℚ) :
    (UsePuzzle.movePiece cfg st pid x y).completeEvents =
      st.completeEvents +
        (if st.completed = false ∧ PuzzleEngine.isPuzzleComplete
            (UsePuzzle.movePiece cfg st pid x y).pieces = true then 1 else 0) := by
  by_cases hc : st.completed = true
  · rw [UsePuzzle.movePiece_of_completed cfg st pid x y hc]
    simp [hc]
  · have hc2 : st.completed = false := Bool.not_eq_true _ ▸ hc
    simp only [UsePuzzle.movePiece, hc2, Bool.false_eq_true, if_false, Bool.not_false,
      Bool.true_and, hc2, true_and]
    by_cases hf : PuzzleEngine.isPuzzleComplete
        (st.pieces.map (UsePuzzle.moveUpdate cfg.snapThreshold pid x y)) = true <;>
      simp [hf]

theorem movePiece_completed_eq (cfg : Config) (st : PuzzleState) (pid : Nat) (x y : ℚ) :
    (UsePuzzle.movePiece cfg st pid x y).completed =
      (st.completed || PuzzleEngine.isPuzzleComplete
        (UsePuzzle.movePiece cfg st pid x y).pieces) := by
  by_cases hc : st.completed = true
  · rw [UsePuzzle.movePiece_of_completed cfg st pid x y hc]
    simp [hc]
  · have hc2 : st.completed = false := Bool.not_eq_true _ ▸ hc
    simp only [UsePuzzle.movePiece, hc2, Bool.false_eq_true, if_false, Bool.not_false,
      Bool.true_and, Bool.false_or]

theorem rotatePiece_completeEvents (cfg : Config) (st : PuzzleState) (pid : Nat) :
    (UsePuzzle.rotatePiece cfg st pid).completeEvents =
      st.completeEvents +
        (if st.completed = false ∧ PuzzleEngine.isPuzzleComplete
            (UsePuzzle.rotatePiece cfg st pid).pieces = true then 1 else 0) := by
  by_cases hc : st.completed = true
  · rw [UsePuzzle.rotatePiece_of_completed cfg st pid hc]
    simp [hc]
  · have hc2 : st.completed = false := Bool.not_eq_true _ ▸ hc
    simp only [UsePuzzle.rotatePiece, hc2, Bool.false_eq_true, if_false, Bool.not_false,
      Bool.true_and, hc2, true_and]
    by_cases hf : PuzzleEngine.isPuzzleComplete
        (st.pieces.map (UsePuzzle.rotateUpdate cfg.snapThreshold
          (if cfg.rotationMode = "180" then 180 else 90) pid)) = true <;>
      simp [hf]

theorem rotatePiece_completed_eq (cfg : Config) (st : PuzzleState) (pid : Nat) :
    (UsePuzzle.rotatePiece cfg st pid).completed =
      (st.completed || PuzzleEngine.isPuzzleComplete
        (UsePuzzle.rotatePiece cfg st pid).pieces) := by
  by_cases hc : st.completed = true
  · rw [UsePuzzle.rotatePiece_of_completed cfg st pid hc]
    simp [hc]
  · have hc2 : st.completed = false := Bool.not_eq_true _ ▸ hc
    simp only [UsePuzzle.rotatePiece, hc2, Bool.false_eq_true, if_false, Bool.not_false,
      Bool.true_and, Bool.false_or]

theorem eventInv_movePiece (cfg : Config) (st : PuzzleState) (pid : Nat) (x y : ℚ)
    (h : EventInv st) : EventInv (UsePuzzle.movePiece cfg st pid x y) := by
  by_cases hc : st.completed = true
  · rw [UsePuzzle.movePiece_of_completed cfg st pid x y hc]
    exact h
  · have hc2 : st.completed = false := Bool.not_eq_true _ ▸ hc
    have h0 : st.completeEvents = 0 := by
      rw [EventInv, hc2] at h
      simpa using h
    unfold EventInv
    rw [movePiece_completeEvents cfg st pid x y, movePiece_completed_eq cfg st pid x y,
      h0, hc2]
    by_cases hf : PuzzleEngine.isPuzzleComplete
        (UsePuzzle.movePiece cfg st pid x y).pieces = true <;>
      simp [hf]

theorem eventInv_rotatePiece (cfg : Config) (st : PuzzleState) (pid : Nat)
    (h : EventInv st) : EventInv (UsePuzzle.rotatePiece cfg st pid) := by
  by_cases hc : st.completed = true
  · rw [UsePuzzle.rotatePiece_of_completed cfg st pid hc]
    exact h
  · have hc2 : st.completed = false := Bool.not_eq_true _ ▸ hc
    have h0 : st.completeEvents = 0 := by
      rw [EventInv, hc2] at h
      simpa using h
    unfold EventInv
    rw [rotatePiece_completeEvents cfg st pid, rotatePiece_completed_eq cfg st pid, h0, hc2]
    by_cases hf : PuzzleEngine.isPuzzleComplete
        (UsePuzzle.rotatePiece cfg st pid).pieces = true <;>
      simp [hf]

theorem eventInv_foldl_move (cfg : Config) (l : List Piece) (st : PuzzleState)
    (h : EventInv st) :
    EventInv (l.foldl
      (fun s p => UsePuzzle.movePiece cfg s p.id p.currentX p.currentY) st) := by
  induction l generalizing st with
  | nil => exact h
  | cons p t ih => exact ih _ (eventInv_movePiece cfg st p.id p.currentX p.currentY h)

theorem eventInv_handleShuffle (cfg : Config) (st : PuzzleState)
    (rand : Nat → ℚ × ℚ × ℚ) (h : EventInv st) :
    EventInv (App.handleShuffle cfg st rand) := by
  unfold App.handleShuffle
  by_cases hc : st.completed = true
  · rw [if_pos hc]
    exact h
  · rw [if_neg hc]
    exact eventInv_foldl_move cfg _ st h

theorem reach_eventInv (cfg : Config) (st : PuzzleState) (h : Reach cfg st) :
    EventInv st := by
  induction h with
  | init rand => rfl
  | move pid x y _ ih => exact eventInv_movePiece cfg _ pid x y ih
  | rotate pid _ ih => exact eventInv_rotatePiece cfg _ pid ih
  | hint _ ih => exact ih
  | reshuffle rand _ ih => exact eventInv_handleShuffle cfg _ rand ih

/-- C8: isPuzzleComplete holds exactly of a non-empty all-placed collection
(the empty collection is incomplete); in every reachable state the completion
notification has fired once if the completion flag is set and never otherwise,
so it fires exactly once per session; and a move or rotate command fires the
notification exactly when the state was not yet completed and the updated
collection is complete, the same condition under which the completion flag
becomes set. -/
theorem completion_fires_exactly_once (cfg : Config) (st : PuzzleState)
    (h : Reach cfg st) :
    (∀ ps : List Piece, PuzzleEngine.isPuzzleComplete ps = true ↔
        ps ≠ [] ∧ ∀ p ∈ ps, p.isPlaced = true)
    ∧ st.completeEvents = (if st.completed = true then 1 else 0)
    ∧ (∀ (pid : Nat) (x y : ℚ),
        (UsePuzzle.movePiece cfg st pid x y).completeEvents =
          st.completeEvents +
            (if st.completed = false ∧ PuzzleEngine.isPuzzleComplete
                (UsePuzzle.movePiece cfg st pid x y).pieces = true then 1 else 0)
        ∧ (UsePuzzle.movePiece cfg st pid x y).completed =
            (st.completed || PuzzleEngine.isPuzzleComplete
              (UsePuzzle.movePiece cfg st pid x y).pieces))
    ∧ (∀ pid : Nat,
        (UsePuzzle.rotatePiece cfg st pid).completeEvents =
          st.completeEvents +
            (if st.completed = false ∧ PuzzleEngine.isPuzzleComplete
                (UsePuzzle.rotatePiece cfg st pid).pieces = true then 1 else 0)
        ∧ (UsePuzzle.rotatePiece cfg st pid).completed =
            (st.completed || PuzzleEngine.isPuzzleComplete
              (UsePuzzle.rotatePiece cfg st pid).pieces)) :=
  ⟨PuzzleEngine.isPuzzleComplete_iff,
   reach_eventInv cfg st h,
   fun pid x y => ⟨movePiece_completeEvents cfg st pid x y,
     movePiece_completed_eq cfg st pid x y⟩,
   fun pid => ⟨rotatePiece_completeEvents cfg st pid,
     rotatePiece_completed_eq cfg st pid⟩⟩

/-- Witness for C8 at the concrete state produced by an initialization with
the constant draw stream. -/
theorem completion_fires_exactly_once_witness :
    (∀ ps : List Piece, PuzzleEngine.isPuzzleComplete ps = true ↔
        ps ≠ [] ∧ ∀ p ∈ ps, p.isPlaced = true)
    ∧ (UsePuzzle.initPuzzle cfgNone rand0).completeEvents =
        (if (UsePuzzle.initPuzzle cfgNone rand0).completed = true then 1 else 0)
    ∧ (∀ (pid : Nat) (x y : ℚ),
        (UsePuzzle.movePiece cfgNone (UsePuzzle.initPuzzle cfgNone rand0)
            pid x y).completeEvents =
          (UsePuzzle.initPuzzle cfgNone rand0).completeEvents +
            (if (UsePuzzle.initPuzzle cfgNone rand0).completed = false ∧
                PuzzleEngine.isPuzzleComplete
                  (UsePuzzle.movePiece cfgNone (UsePuzzle.initPuzzle cfgNone rand0)
                    pid x y).pieces = true then 1 else 0)
        ∧ (UsePuzzle.movePiece cfgNone (UsePuzzle.initPuzzle cfgNone rand0)
            pid x y).completed =
            ((UsePuzzle.initPuzzle cfgNone rand0).completed ||
              PuzzleEngine.isPuzzleComplete
                (UsePuzzle.movePiece cfgNone (UsePuzzle.initPuzzle cfgNone rand0)
                  pid x y).pieces))
    ∧ (∀ pid : Nat,
        (UsePuzzle.rotatePiece cfgNone (UsePuzzle.initPuzzle cfgNone rand0)
            pid).completeEvents =
          (UsePuzzle.initPuzzle cfgNone rand0).completeEvents +
            (if (UsePuzzle.initPuzzle cfgNone rand0).completed = false ∧
                PuzzleEngine.isPuzzleComplete
                  (UsePuzzle.rotatePiece cfgNone (UsePuzzle.initPuzzle cfgNone rand0)
                    pid).pieces = true then 1 else 0)
        ∧ (UsePuzzle.rotatePiece cfgNone (UsePuzzle.initPuzzle cfgNone rand0)
            pid).completed =
            ((UsePuzzle.initPuzzle cfgNone rand0).completed ||
              PuzzleEngine.isPuzzleComplete
                (UsePuzzle.rotatePiece cfgNone (UsePuzzle.initPuzzle cfgNone rand0)
                  pid).pieces)) :=
  completion_fires_exactly_once cfgNone (UsePuzzle.initPuzzle cfgNone rand0)
    (Reach.init rand0)
